import Mathlib

/-!
Verification of the timesheet-dashboard calendar core.

This file gives a shallow embedding, in Lean 4, of the logic of
`timesheet_dashboard/views/calendar/timesheet_mixin.py` and
`timesheet_dashboard/views/calendar/calendar_view.py`, and proves or refutes
the specified properties of that logic.

Modelling conventions:
* Python dates are modelled as `Date` records (year, month, day).
* Django's `__week_day` lookup (1 = Sunday … 7 = Saturday) is computed from
  the civil date with Sakamoto's algorithm.
* Querysets of daily entries are modelled as lists; `filter(Q(...))`
  becomes `List.filter`.
* `calculate_monthly_overtime` can hit `weekend_entry.duration -
  weekend_entry_duration` with `weekend_entry_duration = None`, which in
  Python raises a `TypeError`; the function is therefore embedded with an
  `Option Int` result where `none` models that fatal error.
* The `CalendarView.post` handler runs under `@transaction.atomic` and every
  error branch redirects before any `save()` call, so it is embedded as a
  function `Except PostError TsState`: an `error` result leaves persistent
  state unchanged by construction, matching the source's control flow.
-/

namespace TimesheetDashboard

/-- A civil date, mirroring Python's `datetime.date`. -/
structure Date where
  year : Nat
  month : Nat
  day : Nat
deriving DecidableEq, Repr

/-- Gregorian leap-year rule, as used by Python's `calendar` module. -/
def isLeap (y : Nat) : Bool :=
  (y % 4 == 0 && y % 100 != 0) || (y % 400 == 0)

/-- Number of days in a month, as returned by `calendar.monthrange(year, month)[1]`. -/
def daysInMonth (y m : Nat) : Nat :=
  if m = 2 then (if isLeap y then 29 else 28)
  else if m = 4 ∨ m = 6 ∨ m = 9 ∨ m = 11 then 30
  else 31

/-- `TimesheetMixin.month_day_list`: `[date(year, month, day) for day in
range(1, last_day + 1)]` where `last_day = calendar.monthrange(year, month)[1]`. -/
def month_day_list (year month : Nat) : List Date :=
  (List.range (daysInMonth year month)).map (fun i => ⟨year, month, i + 1⟩)

/-- Month offsets of Sakamoto's day-of-week algorithm. -/
def sakamotoOffset (m : Nat) : Nat :=
  match m with
  | 1 => 0 | 2 => 3 | 3 => 2 | 4 => 5 | 5 => 0 | 6 => 3
  | 7 => 5 | 8 => 1 | 9 => 4 | 10 => 6 | 11 => 2 | _ => 4

/-- Django's `__week_day` lookup value for a date: 1 = Sunday … 7 = Saturday,
computed with Sakamoto's algorithm (which yields 0 = Sunday … 6 = Saturday). -/
def djangoWeekDay (d : Date) : Nat :=
  let y := if d.month < 3 then d.year - 1 else d.year
  (y + y / 4 - y / 100 + y / 400 + sakamotoOffset d.month + d.day) % 7 + 1

/-- C9 sanity: 2024-03-03 was a Sunday. -/
example : djangoWeekDay ⟨2024, 3, 3⟩ = 1 := by decide

example : djangoWeekDay ⟨2024, 3, 2⟩ = 7 := by decide

example : djangoWeekDay ⟨2024, 3, 4⟩ = 2 := by decide

/-- C9: for every valid (year, month), `month_day_list` has the calendar's
day count for the month (between 28 and 31) and its i-th element is the
date with day number i+1, i.e. the list is the consecutive ascending run of
the month's dates starting at day 1. -/
theorem month_day_list_spec (y m : Nat) (h1 : 1 ≤ m) (h2 : m ≤ 12) :
    (month_day_list y m).length = daysInMonth y m
    ∧ 28 ≤ (month_day_list y m).length
    ∧ (month_day_list y m).length ≤ 31
    ∧ ∀ i, (hi : i < (month_day_list y m).length) →
        (month_day_list y m).get ⟨i, hi⟩ = ⟨y, m, i + 1⟩ := by
  have hlen : (month_day_list y m).length = daysInMonth y m := by
    simp [month_day_list]
  have hbounds : 28 ≤ daysInMonth y m ∧ daysInMonth y m ≤ 31 := by
    cases hly : isLeap y <;> interval_cases m <;> norm_num [daysInMonth, hly]
  refine ⟨hlen, by omega, by omega, ?_⟩
  intro i hi
  simp [month_day_list, List.get_eq_getElem]

/-- C9 witness: instantiation at February 2024 (a leap year). -/
theorem month_day_list_spec_witness :
    1 ≤ 2 ∧ 2 ≤ 12 ∧
    ((month_day_list 2024 2).length = daysInMonth 2024 2
     ∧ 28 ≤ (month_day_list 2024 2).length
     ∧ (month_day_list 2024 2).length ≤ 31
     ∧ ∀ i, (hi : i < (month_day_list 2024 2).length) →
         (month_day_list 2024 2).get ⟨i, hi⟩ = ⟨2024, 2, i + 1⟩) :=
  ⟨by decide, by decide, month_day_list_spec 2024 2 (by decide) (by decide)⟩

/-- A daily entry row: date, logged duration in hours, entry-type tag
(`timesheet.dailyentry` fields used by the calendar views). -/
structure DailyEntry where
  day : Date
  duration : Int
  entry_type : String
deriving DecidableEq, Repr

/-- `base_time_obj` of `calculate_monthly_overtime`: initially 8, reassigned
to 12 when `self.is_nightwatch`. -/
def base_time (is_nightwatch : Bool) : Int :=
  if is_nightwatch then 12 else 8

/-- The `weekday_entries` queryset of `calculate_monthly_overtime`:
`dailyentries.filter(Q(day__week_day__lt=7) & Q(day__week_day__gt=1) &
Q(entry_type='RH'))`. -/
def weekday_entries (dailyentries : List DailyEntry) : List DailyEntry :=
  dailyentries.filter (fun e =>
    decide (djangoWeekDay e.day < 7) && decide (1 < djangoWeekDay e.day)
      && (e.entry_type == "RH"))

/-- The `weekend_entries` queryset of `calculate_monthly_overtime`:
`filter(Q(day__week_day__gte=6) & Q(day__week_day__lte=7) & Q(entry_type='WE'))`,
reassigned for nightwatch users to
`filter(Q(day__week_day__gte=6) & Q(day__week_day__lte=7) | Q(entry_type='H'))`. -/
def weekend_entries (is_nightwatch : Bool) (dailyentries : List DailyEntry) :
    List DailyEntry :=
  if is_nightwatch then
    dailyentries.filter (fun e =>
      (decide (6 ≤ djangoWeekDay e.day) && decide (djangoWeekDay e.day ≤ 7))
        || (e.entry_type == "H"))
  else
    dailyentries.filter (fun e =>
      decide (6 ≤ djangoWeekDay e.day) && decide (djangoWeekDay e.day ≤ 7)
        && (e.entry_type == "WE"))

/-- The `holiday_entries` queryset of `calculate_monthly_overtime`:
`dailyentries.filter(Q(entry_type='H'))`. -/
def holiday_entries (dailyentries : List DailyEntry) : List DailyEntry :=
  dailyentries.filter (fun e => e.entry_type == "H")

/-- The first accumulation loop of `calculate_monthly_overtime`: for each
weekday entry, add `duration - base_time_obj` when `duration > base_time_obj`. -/
def weekday_overtime (is_nightwatch : Bool) (dailyentries : List DailyEntry) : Int :=
  (weekday_entries dailyentries).foldl
    (fun acc e =>
      if e.duration > base_time is_nightwatch then
        acc + (e.duration - base_time is_nightwatch)
      else acc) 0

/-- `TimesheetMixin.calculate_monthly_overtime`, modulo the persistence of the
result string: the returned value is the computed `extra_hours`.
`weekend_entry_duration` is `None` in the source; for a non-nightwatch user the
weekend loop evaluates `weekend_entry.duration - weekend_entry_duration`, a
`TypeError` in Python, modelled here as the `none` result (the loop is a
`foldlM` so the first failing iteration aborts the computation, as the raised
exception does). -/
def calculate_monthly_overtime (is_nightwatch : Bool)
    (dailyentries : List DailyEntry) : Option Int :=
  let holiday_entry_duration : Int := 8
  let weekend_entry_duration : Option Int := none
  let extra_hours := weekday_overtime is_nightwatch dailyentries
  let after_weekends : Option Int :=
    (weekend_entries is_nightwatch dailyentries).foldlM
      (fun (acc : Int) e =>
        if is_nightwatch then
          let difference := e.duration - base_time is_nightwatch
          some (if difference > 0 then acc + difference else acc)
        else
          match weekend_entry_duration with
          | none => (none : Option Int)
          | some w =>
            let difference := e.duration - w
            some (if difference > 0 then acc + difference else acc))
      extra_hours
  match after_weekends with
  | none => none
  | some acc =>
    some ((holiday_entries dailyentries).foldl
      (fun acc e =>
        let difference := e.duration - holiday_entry_duration
        if difference > 0 then acc + difference else acc)
      acc)

/-- The overtime contribution the spec's words attribute to the weekday rule:
entries tagged 'RH' whose date falls on Tuesday through Saturday
(Django week_day 3..7), each adding `duration - baseline` when positive.
This definition follows the SPEC's sentence, to be compared against the
source-derived `weekday_overtime`. -/
def spec_claimed_weekday_overtime (is_nightwatch : Bool)
    (dailyentries : List DailyEntry) : Int :=
  ((dailyentries.filter (fun e =>
      (e.entry_type == "RH") && decide (3 ≤ djangoWeekDay e.day)
        && decide (djangoWeekDay e.day ≤ 7))).map
    (fun e => max (e.duration - base_time is_nightwatch) 0)).sum

/-- Helper: the accumulate-positive-difference loop equals the starting value
plus the sum of the clamped differences. -/
lemma foldl_posdiff (b : Int) (l : List DailyEntry) :
    ∀ a : Int,
      l.foldl (fun acc e =>
        if e.duration > b then acc + (e.duration - b) else acc) a
      = a + (l.map (fun e => max (e.duration - b) 0)).sum := by
  induction l with
  | nil => intro a; simp
  | cons e t ih =>
    intro a
    simp only [List.foldl_cons, List.map_cons, List.sum_cons, ih]
    rcases le_or_lt e.duration b with hle | hlt
    · rw [if_neg (by omega)]
      have hmax : max (e.duration - b) 0 = 0 := by omega
      rw [hmax]; ring
    · rw [if_pos (by omega)]
      have hmax : max (e.duration - b) 0 = e.duration - b := by omega
      rw [hmax]; ring

/-- C2 (amended): the weekday rule of `calculate_monthly_overtime` selects
exactly the entries tagged 'RH' whose Django week_day lies in 2..6 — that is,
Monday through Friday under Django's 1=Sunday…7=Saturday convention, not
Tuesday through Saturday — and contributes `duration - baseline` when
positive, with baseline 8 for standard roles and 12 for night-shift roles. -/
theorem weekday_rule_spec (nw : Bool) (entries : List DailyEntry) (e : DailyEntry) :
    (e ∈ weekday_entries entries ↔
      e ∈ entries ∧ e.entry_type = "RH"
        ∧ 2 ≤ djangoWeekDay e.day ∧ djangoWeekDay e.day ≤ 6)
    ∧ weekday_overtime nw entries
        = ((weekday_entries entries).map
            (fun x => max (x.duration - base_time nw) 0)).sum
    ∧ base_time false = 8 ∧ base_time true = 12 := by
  refine ⟨?_, ?_, rfl, rfl⟩
  · simp only [weekday_entries, List.mem_filter, Bool.and_eq_true,
      decide_eq_true_eq, beq_iff_eq]
    constructor
    · rintro ⟨hm, ⟨⟨h7, h1⟩, hty⟩⟩
      exact ⟨hm, hty, by omega, by omega⟩
    · rintro ⟨hm, hty, h2, h6⟩
      exact ⟨hm, ⟨⟨by omega, by omega⟩, hty⟩⟩
  · simpa using foldl_posdiff (base_time nw) (weekday_entries entries) 0

/-- C2 witness: instantiation of the amended weekday rule at a concrete
Friday 'RH' entry of 10 hours for a standard role. -/
theorem weekday_rule_spec_witness :
    ((⟨⟨2024, 3, 1⟩, 10, "RH"⟩ : DailyEntry) ∈
        weekday_entries [⟨⟨2024, 3, 1⟩, 10, "RH"⟩] ↔
      (⟨⟨2024, 3, 1⟩, 10, "RH"⟩ : DailyEntry) ∈ [(⟨⟨2024, 3, 1⟩, 10, "RH"⟩ : DailyEntry)]
        ∧ (⟨⟨2024, 3, 1⟩, 10, "RH"⟩ : DailyEntry).entry_type = "RH"
        ∧ 2 ≤ djangoWeekDay ⟨2024, 3, 1⟩ ∧ djangoWeekDay ⟨2024, 3, 1⟩ ≤ 6)
    ∧ weekday_overtime false [⟨⟨2024, 3, 1⟩, 10, "RH"⟩]
        = ((weekday_entries [⟨⟨2024, 3, 1⟩, 10, "RH"⟩]).map
            (fun x => max (x.duration - base_time false) 0)).sum
    ∧ base_time false = 8 ∧ base_time true = 12 :=
  weekday_rule_spec false [⟨⟨2024, 3, 1⟩, 10, "RH"⟩] ⟨⟨2024, 3, 1⟩, 10, "RH"⟩

/-- C2 counterexample: 2024-03-02 is a Saturday (Django week_day 7): the claim
("Tuesday through Saturday") says a 10-hour 'RH' entry there contributes 2
overtime hours, but the code's weekday rule excludes it and computes 0; dually
2024-03-04, a Monday (Django week_day 2), is selected by the code (contributing
2) but excluded by the claim. -/
theorem weekday_rule_counterexample :
    weekday_overtime false [⟨⟨2024, 3, 2⟩, 10, "RH"⟩] = 0
    ∧ spec_claimed_weekday_overtime false [⟨⟨2024, 3, 2⟩, 10, "RH"⟩] = 2
    ∧ calculate_monthly_overtime false [⟨⟨2024, 3, 2⟩, 10, "RH"⟩] = some 0
    ∧ djangoWeekDay ⟨2024, 3, 2⟩ = 7
    ∧ weekday_overtime false [⟨⟨2024, 3, 4⟩, 10, "RH"⟩] = 2
    ∧ spec_claimed_weekday_overtime false [⟨⟨2024, 3, 4⟩, 10, "RH"⟩] = 0
    ∧ djangoWeekDay ⟨2024, 3, 4⟩ = 2 := by
  decide

/-- C3 (amended): for a standard (non-night-shift) role the computation fails
(the unconfigured `weekend_entry_duration = None` is subtracted, a fatal
`TypeError`) exactly when some entry is tagged 'WE' AND falls on Django
week_day 6 or 7 (Friday or Saturday); it never silently treats the missing
weekend baseline as zero, but 'WE' entries on other days of the week are not
selected by the weekend filter at all and cause no failure. -/
theorem weekend_baseline_error_iff (entries : List DailyEntry) :
    calculate_monthly_overtime false entries = none ↔
      ∃ e, e ∈ entries ∧ e.entry_type = "WE"
        ∧ 6 ≤ djangoWeekDay e.day ∧ djangoWeekDay e.day ≤ 7 := by
  have hiff : calculate_monthly_overtime false entries = none ↔
      weekend_entries false entries ≠ [] := by
    rcases h : weekend_entries false entries with _ | ⟨e0, rest⟩
    · simp [calculate_monthly_overtime, h]
    · simp [calculate_monthly_overtime, h]
  rw [hiff]
  have hmem : ∀ e : DailyEntry, e ∈ weekend_entries false entries ↔
      e ∈ entries ∧ e.entry_type = "WE"
        ∧ 6 ≤ djangoWeekDay e.day ∧ djangoWeekDay e.day ≤ 7 := by
    intro e
    simp only [weekend_entries, if_neg Bool.false_ne_true, List.mem_filter,
      Bool.and_eq_true, decide_eq_true_eq, beq_iff_eq]
    constructor
    · rintro ⟨hm, ⟨⟨h6, h7⟩, hty⟩⟩
      exact ⟨hm, hty, h6, h7⟩
    · rintro ⟨hm, hty, h6, h7⟩
      exact ⟨hm, ⟨⟨h6, h7⟩, hty⟩⟩
  constructor
  · intro hne
    rcases List.exists_mem_of_ne_nil _ hne with ⟨e, he⟩
    exact ⟨e, (hmem e).mp he⟩
  · rintro ⟨e, he⟩
    exact List.ne_nil_of_mem ((hmem e).mpr he)

/-- C3 witness: the amended equivalence instantiated at a single 'WE' entry on
Friday 2024-03-01 (Django week_day 6), where the computation does fail. -/
theorem weekend_baseline_error_iff_witness :
    calculate_monthly_overtime false [⟨⟨2024, 3, 1⟩, 10, "WE"⟩] = none ↔
      ∃ e, e ∈ [(⟨⟨2024, 3, 1⟩, 10, "WE"⟩ : DailyEntry)] ∧ e.entry_type = "WE"
        ∧ 6 ≤ djangoWeekDay e.day ∧ djangoWeekDay e.day ≤ 7 :=
  weekend_baseline_error_iff [⟨⟨2024, 3, 1⟩, 10, "WE"⟩]

/-- C3 counterexample: a 'WE' entry on Sunday 2024-03-03 (Django week_day 1)
does NOT make `calculate_monthly_overtime` fail for a standard role — it
returns `some 0` — refuting the claim that any entry set containing a
weekend-tagged entry fails with a configuration error. -/
theorem weekend_baseline_counterexample :
    calculate_monthly_overtime false [⟨⟨2024, 3, 3⟩, 10, "WE"⟩] = some 0
    ∧ djangoWeekDay ⟨2024, 3, 3⟩ = 1
    ∧ (⟨⟨2024, 3, 3⟩, 10, "WE"⟩ : DailyEntry).entry_type = "WE" := by
  decide

/-- The zero-duration placeholder row created by `ensure_daily_placeholders`
(`objects.create(monthly_entry=..., day=_day, duration=0)`; the entry type is
left at its model default, modelled as the empty string). -/
def placeholder (d : Date) : DailyEntry :=
  ⟨d, 0, ""⟩

/-- `TimesheetMixin.ensure_daily_placeholders`: collects the set of existing
entry dates, then creates a zero-duration placeholder for every day of the
month not in that set.  The persistent entry list is modelled as the original
list with the newly created rows appended. -/
def ensure_daily_placeholders (year month : Nat) (entries : List DailyEntry) :
    List DailyEntry :=
  let existing_dates := entries.map (fun e => e.day)
  entries ++
    ((month_day_list year month).filter
      (fun d => decide (d ∉ existing_dates))).map placeholder

/-- Number of daily entries recorded for a given date. -/
def dayCount (d : Date) (entries : List DailyEntry) : Nat :=
  entries.countP (fun e => decide (e.day = d))

/-- Helper: on a duplicate-free list, the number of occurrences of a member
is one. -/
lemma countP_eq_one_of_nodup_mem {α : Type} [DecidableEq α] {l : List α} {d : α}
    (hnd : l.Nodup) (hd : d ∈ l) :
    l.countP (fun x => decide (x = d)) = 1 := by
  induction l with
  | nil => cases hd
  | cons a t ih =>
    rcases List.nodup_cons.mp hnd with ⟨hat, hnt⟩
    rcases List.mem_cons.mp hd with rfl | hdt
    · rw [List.countP_cons_of_pos _ _ (by simp)]
      have : t.countP (fun x => decide (x = d)) = 0 := by
        rw [List.countP_eq_zero]
        intro x hx
        simp only [decide_eq_true_eq]
        rintro rfl
        exact hat hx
      omega
    · rw [List.countP_cons_of_neg, ih hnt hdt]
      simp only [decide_eq_true_eq]
      rintro rfl
      exact hat hdt

/-- Helper: a non-member occurs zero times. -/
lemma countP_eq_zero_of_not_mem {α : Type} [DecidableEq α] {l : List α} {d : α}
    (hd : d ∉ l) :
    l.countP (fun x => decide (x = d)) = 0 := by
  rw [List.countP_eq_zero]
  intro x hx
  simp only [decide_eq_true_eq]
  rintro rfl
  exact hd hx

/-- Helper: `month_day_list` never repeats a date. -/
lemma month_day_list_nodup (y m : Nat) : (month_day_list y m).Nodup := by
  refine List.Nodup.map ?_ (List.nodup_range _)
  intro i j hij
  have : i + 1 = j + 1 := congrArg Date.day hij
  omega

/-- Helper: counting entries with a given day, through the `.day` projection. -/
lemma dayCount_eq_countP_map (d : Date) (entries : List DailyEntry) :
    dayCount d entries
      = (entries.map (fun e => e.day)).countP (fun x => decide (x = d)) := by
  rw [dayCount, List.countP_map]
  rfl

/-- C8: provided the timesheet starts with at most one entry per date (no
duplicated days), one call of `ensure_daily_placeholders` leaves every
calendar day of the month with exactly one daily entry, and a second call
creates nothing: it returns the same entry list unchanged. -/
theorem ensure_daily_placeholders_spec (y m : Nat) (entries : List DailyEntry)
    (hnd : (entries.map (fun e => e.day)).Nodup) :
    (∀ d, d ∈ month_day_list y m →
      dayCount d (ensure_daily_placeholders y m entries) = 1)
    ∧ ensure_daily_placeholders y m (ensure_daily_placeholders y m entries)
        = ensure_daily_placeholders y m entries := by
  have hmdl := month_day_list_nodup y m
  constructor
  · intro d hd
    rw [ensure_daily_placeholders]
    simp only [dayCount, List.countP_append]
    by_cases hin : d ∈ entries.map (fun e => e.day)
    · have h1 : entries.countP (fun e => decide (e.day = d)) = 1 := by
        have := dayCount_eq_countP_map d entries
        rw [dayCount] at this
        rw [this]
        exact countP_eq_one_of_nodup_mem hnd hin
      have h2 : (((month_day_list y m).filter
            (fun x => decide (x ∉ entries.map (fun e => e.day)))).map
              placeholder).countP (fun e => decide (e.day = d)) = 0 := by
        rw [List.countP_map, List.countP_eq_zero]
        intro x hx
        rcases List.mem_filter.mp hx with ⟨_, hpx⟩
        simp only [decide_eq_true_eq] at hpx
        simp only [Function.comp_apply, placeholder, decide_eq_true_eq]
        rintro rfl
        exact hpx hin
      omega
    · have h1 : entries.countP (fun e => decide (e.day = d)) = 0 := by
        rw [List.countP_eq_zero]
        intro e he
        simp only [decide_eq_true_eq]
        rintro rfl
        exact hin (List.mem_map_of_mem _ he)
      have hmemf : d ∈ (month_day_list y m).filter
          (fun x => decide (x ∉ entries.map (fun e => e.day))) :=
        List.mem_filter.mpr ⟨hd, by simpa using hin⟩
      have h2 : (((month_day_list y m).filter
            (fun x => decide (x ∉ entries.map (fun e => e.day)))).map
              placeholder).countP (fun e => decide (e.day = d)) = 1 := by
        rw [List.countP_map]
        have : (fun x => decide ((placeholder x).day = d))
            = (fun x => decide (x = d)) := by
          funext x; rfl
        rw [show ((fun e => decide (DailyEntry.day e = d)) ∘ placeholder)
            = (fun x => decide (x = d)) from by funext x; rfl]
        exact countP_eq_one_of_nodup_mem (hmdl.filter _) hmemf
      omega
  · have hcover : ∀ d, d ∈ month_day_list y m →
        d ∈ (ensure_daily_placeholders y m entries).map (fun e => e.day) := by
      intro d hd
      rw [ensure_daily_placeholders]
      simp only [List.map_append, List.mem_append, List.map_map]
      by_cases hin : d ∈ entries.map (fun e => e.day)
      · exact Or.inl hin
      · refine Or.inr ?_
        have hmemf : d ∈ (month_day_list y m).filter
            (fun x => decide (x ∉ entries.map (fun e => e.day))) :=
          List.mem_filter.mpr ⟨hd, by simpa using hin⟩
        have : ((fun e => DailyEntry.day e) ∘ placeholder) = (fun x : Date => x) := by
          funext x; rfl
        rw [this]
        simpa using hmemf
    conv_lhs => rw [ensure_daily_placeholders]
    have hfilter : (month_day_list y m).filter
        (fun d => decide
          (d ∉ (ensure_daily_placeholders y m entries).map (fun e => e.day)))
        = [] := by
      rw [List.filter_eq_nil_iff]
      intro d hd
      simp only [decide_eq_true_eq, not_not]
      exact hcover d hd
    rw [hfilter]
    simp

/-- C8 witness: a March-2024 timesheet starting with one 8-hour entry on
2024-03-05 and one out-of-month entry; placeholders are completed exactly
once and the operation is idempotent. -/
theorem ensure_daily_placeholders_spec_witness :
    ((([⟨⟨2024, 3, 5⟩, 8, "RH"⟩, ⟨⟨2024, 2, 5⟩, 8, "RH"⟩] :
        List DailyEntry).map (fun e => e.day)).Nodup)
    ∧ ((∀ d, d ∈ month_day_list 2024 3 →
          dayCount d (ensure_daily_placeholders 2024 3
            [⟨⟨2024, 3, 5⟩, 8, "RH"⟩, ⟨⟨2024, 2, 5⟩, 8, "RH"⟩]) = 1)
       ∧ ensure_daily_placeholders 2024 3 (ensure_daily_placeholders 2024 3
            [⟨⟨2024, 3, 5⟩, 8, "RH"⟩, ⟨⟨2024, 2, 5⟩, 8, "RH"⟩])
          = ensure_daily_placeholders 2024 3
            [⟨⟨2024, 3, 5⟩, 8, "RH"⟩, ⟨⟨2024, 2, 5⟩, 8, "RH"⟩]) :=
  ⟨by decide,
   ensure_daily_placeholders_spec 2024 3
     [⟨⟨2024, 3, 5⟩, 8, "RH"⟩, ⟨⟨2024, 2, 5⟩, 8, "RH"⟩] (by decide)⟩

/-- The fields of a `bhp_personnel.employee` record used by the calendar
views: contact email, job title, and the supervisor's email
(`employee.supervisor.email`). -/
structure Employee where
  email : String
  job_title : String
  supervisor_email : String
deriving DecidableEq, Repr

/-- The fields of `request.user` used by the calendar views. -/
structure User where
  email : String
  groups : List String
  first_name : String
  last_name : String
deriving DecidableEq, Repr

/-- `TimesheetMixin._is_hr`: the user belongs to the 'HR' group. -/
def _is_hr (user : User) : Bool :=
  user.groups.contains ("HR")

/-- `TimesheetMixin._is_employee_supervisor`: the user's email equals the
employee's recorded supervisor email. -/
def _is_employee_supervisor (user : User) (employee : Employee) : Bool :=
  user.email == employee.supervisor_email

/-- `TimesheetMixin._is_supervisor`: member of the 'Supervisor' group AND
supervisor-of-record of the employee. -/
def _is_supervisor (user : User) (employee : Employee) : Bool :=
  user.groups.contains ("Supervisor") && _is_employee_supervisor user employee

/-- `TimesheetMixin._reviewer`: member of the 'Supervisor' or 'HR' group;
note that no supervisor-of-record email check is performed here. -/
def _reviewer (user : User) : Bool :=
  user.groups.contains ("Supervisor") || user.groups.contains ("HR")

/-- `TimesheetMixin.get_user_credentials`: `'{first_name[0]}. {last_name}'`
when both names are non-empty, else the empty string. -/
def get_user_credentials (user : User) : String :=
  if user.first_name.isEmpty || user.last_name.isEmpty then ""
  else user.first_name.take 1 ++ ". " ++ user.last_name

/-- `TimesheetMixin.is_future_month`: `(year, month) > (today.year,
today.month)` under Python's lexicographic tuple comparison. -/
def is_future_month (year month today_year today_month : Nat) : Bool :=
  decide (today_year < year)
    || ((year == today_year) && decide (today_month < month))

/-- Boolean test for one character list being a prefix of another. -/
def isPrefixList : List Char → List Char → Bool
  | [], _ => true
  | _ :: _, [] => false
  | a :: as, b :: bs => (a == b) && isPrefixList as bs

/-- Boolean test for one character list occurring contiguously inside
another; models the Python `in` operator on strings. -/
def containsSub (n : List Char) : List Char → Bool
  | [] => isPrefixList n []
  | c :: t => isPrefixList n (c :: t) || containsSub n t

lemma isPrefixList_iff (n : List Char) :
    ∀ h : List Char, isPrefixList n h = true ↔ ∃ q, h = n ++ q := by
  induction n with
  | nil =>
    intro h
    simp [isPrefixList]
  | cons a as ih =>
    intro h
    cases h with
    | nil =>
      simp only [isPrefixList]
      constructor
      · intro hfalse; cases hfalse
      · rintro ⟨q, hq⟩; cases hq
    | cons b bs =>
      simp only [isPrefixList, Bool.and_eq_true, beq_iff_eq, ih bs]
      constructor
      · rintro ⟨rfl, q, rfl⟩
        exact ⟨q, rfl⟩
      · rintro ⟨q, hq⟩
        rcases List.cons_eq_cons.mp hq with ⟨rfl, htail⟩
        exact ⟨rfl, q, htail⟩

lemma containsSub_iff (n : List Char) :
    ∀ h : List Char, containsSub n h = true ↔ ∃ p q, h = p ++ n ++ q := by
  intro h
  induction h with
  | nil =>
    simp only [containsSub, isPrefixList_iff]
    constructor
    · rintro ⟨q, hq⟩
      exact ⟨[], q, by simpa using hq⟩
    · rintro ⟨p, q, hpq⟩
      have h3 : p = [] ∧ n = [] ∧ q = [] := by simpa using hpq
      exact ⟨[], by simp [h3.2.1]⟩
  | cons c t ih =>
    simp only [containsSub, Bool.or_eq_true, isPrefixList_iff, ih]
    constructor
    · rintro (⟨q, hq⟩ | ⟨p, q, rfl⟩)
      · exact ⟨[], q, by simpa using hq⟩
      · exact ⟨c :: p, q, by simp⟩
    · rintro ⟨p, q, hpq⟩
      cases p with
      | nil =>
        exact Or.inl ⟨q, by simpa using hpq⟩
      | cons p0 ps =>
        rcases List.cons_eq_cons.mp (by simpa using hpq) with ⟨rfl, htail⟩
        exact Or.inr ⟨ps, q, by simpa using htail⟩

/-- `TimesheetMixin.is_nightwatch`: true iff the request user has a linked
employee record (`self.user_employee`, looked up by the request user's email)
whose job title contains the substring 'night' case-insensitively; false when
there is no linked record. -/
def is_nightwatch : Option Employee → Bool
  | some e => containsSub ("night".toList) (e.job_title.toLower.toList)
  | none => false

/-- `TimesheetMixin.user_employee`: the employee record looked up by the
acting (request) user's email in the employee directory. -/
def user_employee (lookupByEmail : String → Option Employee)
    (request_user_email : String) : Option Employee :=
  lookupByEmail request_user_email

/-- The overtime computation as wired in the view: the nightwatch flag fed to
`calculate_monthly_overtime` comes from `self.user_employee` — the acting
user's linked employee record — while the timesheet belongs to
`self.employee` (looked up by the URL's employee_id), which plays no role. -/
def view_monthly_overtime (lookupByEmail : String → Option Employee)
    (request_user_email : String) (_timesheet_employee : Employee)
    (dailyentries : List DailyEntry) : Option Int :=
  calculate_monthly_overtime
    (is_nightwatch (user_employee lookupByEmail request_user_email))
    dailyentries

/-- C10: the night-shift flag consumed by the overtime calculator is derived
from the acting user's own employee record — the overtime result is invariant
under changing the timesheet's employee — and it is true iff that record
exists and its lower-cased job title contains 'night' as a substring, false
whenever the acting user has no linked employee record. -/
theorem is_nightwatch_spec (lookupByEmail : String → Option Employee)
    (request_user_email : String) (emp1 emp2 : Employee)
    (dailyentries : List DailyEntry) (e : Employee) :
    view_monthly_overtime lookupByEmail request_user_email emp1 dailyentries
      = view_monthly_overtime lookupByEmail request_user_email emp2 dailyentries
    ∧ is_nightwatch none = false
    ∧ (is_nightwatch (some e) = true ↔
        ∃ p q, e.job_title.toLower.toList = p ++ ("night".toList) ++ q) := by
  refine ⟨rfl, rfl, ?_⟩
  simpa [is_nightwatch] using
    containsSub_iff ("night".toList) (e.job_title.toLower.toList)

/-- C10 witness: a user whose linked employee record has job title
'Night Security Guard' is a nightwatch; the invariance and the substring
characterization instantiated at concrete records. -/
theorem is_nightwatch_spec_witness :
    view_monthly_overtime (fun _ => some ⟨"u@x", "Night Security Guard", "s@x"⟩)
        ("u@x") ⟨"a@x", "Clerk", "s@x"⟩ []
      = view_monthly_overtime (fun _ => some ⟨"u@x", "Night Security Guard", "s@x"⟩)
        ("u@x") ⟨"b@x", "Night Security Guard", "s@x"⟩ []
    ∧ is_nightwatch none = false
    ∧ (is_nightwatch (some ⟨"u@x", "Night Security Guard", "s@x"⟩) = true ↔
        ∃ p q, (Employee.mk "u@x" "Night Security Guard" "s@x").job_title.toLower.toList
          = p ++ ("night".toList) ++ q) :=
  is_nightwatch_spec (fun _ => some ⟨"u@x", "Night Security Guard", "s@x"⟩)
    ("u@x") ⟨"a@x", "Clerk", "s@x"⟩ ⟨"b@x", "Night Security Guard", "s@x"⟩ []
    ⟨"u@x", "Night Security Guard", "s@x"⟩

/-- The fields of a `timesheet.monthlyentry` record touched by the calendar
views (the model class itself lives in the external `timesheet` app). -/
structure MonthlyEntry where
  status : String
  approved_by : Option String
  approved_date : Option Nat
  verified_by : Option String
  verified_date : Option Nat
  rejected_by : Option String
  rejected_date : Option Nat
  submitted_datetime : Option Nat
  comment : String
deriving DecidableEq, Repr

/-- Modelled from the spec: `MonthlyEntry.is_final` is defined in the external
`timesheet` app; per the spec's state machine `verified` is the only final
state, and the view's own message for this guard reads 'This timesheet is
already verified and cannot be modified further.' -/
def is_final (me : MonthlyEntry) : Bool :=
  me.status == "verified"

/-- The persistent state a `CalendarView.post` request touches: the monthly
entry for the (employee, month) addressed by the URL, if any, and its daily
entries. -/
structure TsState where
  monthly : Option MonthlyEntry
  entries : List DailyEntry
deriving DecidableEq, Repr

/-- The POST payload fields inspected by `CalendarView.post`.  The inline
formset machinery (`MonthlyEntryForm` / `DailyEntryFormSet`, external
`timesheet` app) is abstracted: `form_valid` is the outcome of
`form.is_valid() and formset.is_valid()`, and a valid save replaces the
timesheet's daily entries with the submitted rows `new_entries`. -/
structure PostRequest where
  has_start : Bool
  review_action : Option String
  review_comment : String
  has_submit : Bool
  has_management_fields : Bool
  form_valid : Bool
  new_entries : List DailyEntry
deriving DecidableEq, Repr

/-- The distinct early-return error branches of `CalendarView.post`, one
constructor per distinct message. -/
inductive PostError where
  | FutureMonthDisallowed
  | NoMonthlyEntry
  | FinalVerified
  | NotAllowedRetract
  | OnlyVerifiedRetract
  | NotAllowedApprove
  | OnlySubmittedApprove
  | NotAllowedVerify
  | OnlyApprovedVerify
  | NotAllowedReject
  | OnlySubmittedOrApprovedReject
  | UnknownAction
  | FormInvalid
deriving DecidableEq, Repr

/-- Modelled from the spec: the record `get_or_create` builds with
`defaults={'status': 'draft'}` — external `timesheet` model defaults for the
remaining fields are empty. -/
def new_draft : MonthlyEntry :=
  ⟨"draft", none, none, none, none, none, none, none, ""⟩

/-- Python's `str.strip()` with no argument: remove leading and trailing
whitespace (used for `review_comment`); written on the character list so that
it evaluates by kernel reduction. -/
def pyStrip (s : String) : String :=
  ⟨((s.data.dropWhile Char.isWhitespace).reverse.dropWhile Char.isWhitespace).reverse⟩

/-- `CalendarView.post`, embedded as a function of the request data and the
persistent state.  The handler runs in `@transaction.atomic` and every error
branch redirects before a `save()`, so an `error` result models
message-plus-redirect with persistent state unchanged; an `ok` result carries
the saved state.  `today_year`/`today_month`/`today_date` model
`get_utcnow().date()` and `now` models `get_utcnow()`. -/
def post (allow_future : Bool) (today_year today_month today_date now : Nat)
    (year month : Nat) (user : User) (employee : Employee)
    (req : PostRequest) (st : TsState) : Except PostError TsState :=
  let is_hr := _is_hr user
  let is_supervisor := _is_supervisor user employee
  if req.has_start then
    if is_future_month year month today_year today_month && !allow_future then
      Except.error PostError.FutureMonthDisallowed
    else
      match st.monthly with
      | some me =>
        Except.ok ⟨some me, ensure_daily_placeholders year month st.entries⟩
      | none =>
        Except.ok ⟨some new_draft, ensure_daily_placeholders year month st.entries⟩
  else
    match st.monthly with
    | none => Except.error PostError.NoMonthlyEntry
    | some me =>
      match req.review_action with
      | some action =>
        if is_final me && !is_hr then
          Except.error PostError.FinalVerified
        else
          let prev_status := me.status
          let comment := pyStrip req.review_comment
          if action == "retract" then
            if !is_hr then Except.error PostError.NotAllowedRetract
            else if prev_status != "verified" then
              Except.error PostError.OnlyVerifiedRetract
            else
              Except.ok ⟨some { me with
                  status := "approved", verified_by := none,
                  verified_date := none, comment := comment }, st.entries⟩
          else if action == "approve" then
            if !is_supervisor then Except.error PostError.NotAllowedApprove
            else if prev_status != "submitted" then
              Except.error PostError.OnlySubmittedApprove
            else
              Except.ok ⟨some { me with
                  status := "approved",
                  approved_by := some (get_user_credentials user),
                  approved_date := some today_date, comment := comment }, st.entries⟩
          else if action == "verify" then
            if !is_hr then Except.error PostError.NotAllowedVerify
            else if prev_status != "approved" then
              Except.error PostError.OnlyApprovedVerify
            else
              Except.ok ⟨some { me with
                  status := "verified",
                  verified_by := some (get_user_credentials user),
                  verified_date := some today_date, comment := comment }, st.entries⟩
          else if action == "reject" then
            if !(_reviewer user) then Except.error PostError.NotAllowedReject
            else if prev_status != "submitted" && prev_status != "approved" then
              Except.error PostError.OnlySubmittedOrApprovedReject
            else
              Except.ok ⟨some { me with
                  status := "rejected",
                  rejected_by := some (get_user_credentials user),
                  rejected_date := some today_date, comment := comment }, st.entries⟩
          else Except.error PostError.UnknownAction
      | none =>
        if !req.has_management_fields then
          Except.ok st
        else if req.form_valid then
          if req.has_submit then
            Except.ok ⟨some { me with
                status := "submitted",
                submitted_datetime := some now }, req.new_entries⟩
          else
            Except.ok ⟨some me, req.new_entries⟩
        else Except.error PostError.FormInvalid

/-- `allow_edit` as computed in `CalendarView._build_extra_context`:
`is_owner and entry_status not in ['approved', 'verified']` — a display flag
only, never re-checked by the POST handler. -/
def allow_edit (is_owner : Bool) (entry_status : Option String) : Bool :=
  is_owner && !(entry_status == some "approved" || entry_status == some "verified")

/-- C6: the retract action succeeds exactly for an HR actor on a 'verified'
timesheet: on success the status becomes 'approved' and the verifier identity
and date are cleared while the approver identity and date (and every other
field except the overwritten comment) are carried over unchanged; a non-HR
actor or a non-'verified' status yields an error, which models a redirect
with no state change. -/
theorem retract_spec (allow_future : Bool)
    (today_year today_month today_date now year month : Nat)
    (user : User) (employee : Employee) (req : PostRequest) (st : TsState)
    (me : MonthlyEntry)
    (hstart : req.has_start = false)
    (haction : req.review_action = some ("retract"))
    (hme : st.monthly = some me) :
    ((_is_hr user = true ∧ me.status = "verified") →
      post allow_future today_year today_month today_date now year month
          user employee req st
        = Except.ok ⟨some { me with
            status := "approved", verified_by := none, verified_date := none,
            comment := pyStrip req.review_comment }, st.entries⟩)
    ∧ (_is_hr user = false →
        ∃ err, post allow_future today_year today_month today_date now year month
            user employee req st = Except.error err)
    ∧ ((_is_hr user = true ∧ me.status ≠ "verified") →
        post allow_future today_year today_month today_date now year month
            user employee req st = Except.error PostError.OnlyVerifiedRetract) := by
  refine ⟨?_, ?_, ?_⟩
  · rintro ⟨hhr, hstatus⟩
    simp [post, hstart, haction, hme, hhr, is_final, hstatus]
  · intro hhr
    by_cases hv : me.status = "verified"
    · exact ⟨PostError.FinalVerified, by simp [post, hstart, haction, hme, hhr, is_final, hv]⟩
    · refine ⟨PostError.NotAllowedRetract, ?_⟩
      simp [post, hstart, haction, hme, hhr, is_final, hv]
  · rintro ⟨hhr, hstatus⟩
    simp [post, hstart, haction, hme, hhr, is_final, hstatus]

/-- Fixture: an HR user. -/
def hrUser : User :=
  ⟨"hr@x", ["HR"], "Ha", "Rr"⟩

/-- Fixture: the supervisor-of-record of `emp0`. -/
def supUser : User :=
  ⟨"sup@x", ["Supervisor"], "Su", "Per"⟩

/-- Fixture: a Supervisor-group user whose email does not match `emp0`'s
recorded supervisor email. -/
def wrongSup : User :=
  ⟨"other@x", ["Supervisor"], "Ot", "Her"⟩

/-- Fixture: a user in no review group. -/
def plainUser : User :=
  ⟨"joe@x", [], "Jo", "Ee"⟩

/-- Fixture: the timesheet's employee, supervised by `supUser`. -/
def emp0 : Employee :=
  ⟨"joe@x", "Clerk", "sup@x"⟩

/-- Fixture: a verified monthly entry. -/
def meVerified : MonthlyEntry :=
  ⟨"verified", some ("S. Per"), some 10, some ("H. Rr"), some 20, none, none,
    some 5, "all good"⟩

/-- Fixture: a submitted monthly entry. -/
def meSubmitted : MonthlyEntry :=
  ⟨"submitted", none, none, none, none, none, none, some 5, ""⟩

/-- Fixture: an approved monthly entry. -/
def meApproved : MonthlyEntry :=
  ⟨"approved", some ("S. Per"), some 10, none, none, none, none, some 5, ""⟩

/-- Fixture: a review-action request. -/
def reviewReq (action : String) : PostRequest :=
  ⟨false, some action, "", false, false, false, []⟩

/-- C6 witness: HR retracting a verified March-2024 timesheet succeeds and
clears only the verifier fields; the instantiated hypotheses hold by
computation. -/
theorem retract_spec_witness :
    ((reviewReq ("retract")).has_start = false
      ∧ (reviewReq ("retract")).review_action = some ("retract")
      ∧ (some meVerified : Option MonthlyEntry) = some meVerified)
    ∧ (((_is_hr hrUser = true ∧ meVerified.status = "verified") →
        post false 2024 3 15 99 2024 3 hrUser emp0 (reviewReq ("retract"))
            ⟨some meVerified, []⟩
          = Except.ok ⟨some { meVerified with
              status := "approved", verified_by := none, verified_date := none,
              comment := pyStrip (reviewReq ("retract")).review_comment }, []⟩)
      ∧ (_is_hr hrUser = false →
          ∃ err, post false 2024 3 15 99 2024 3 hrUser emp0 (reviewReq ("retract"))
              ⟨some meVerified, []⟩ = Except.error err)
      ∧ ((_is_hr hrUser = true ∧ meVerified.status ≠ "verified") →
          post false 2024 3 15 99 2024 3 hrUser emp0 (reviewReq ("retract"))
              ⟨some meVerified, []⟩ = Except.error PostError.OnlyVerifiedRetract)) :=
  ⟨⟨rfl, rfl, rfl⟩,
   retract_spec false 2024 3 15 99 2024 3 hrUser emp0 (reviewReq ("retract"))
     ⟨some meVerified, []⟩ meVerified rfl rfl rfl⟩

/-- C7 (amended): from 'submitted', approve by an actor who is not the
supervisor-of-record fails with the permission error and changes nothing; by
the correct supervisor it succeeds, setting status 'approved' and recording
approver identity and date.  From a status other than 'submitted' the action
fails — with the invalid-transition error ('Only submitted timesheets can be
approved') when the actor passes the supervisor check and the timesheet is
not in the verified/final state with a non-HR actor, but from 'verified' a
non-HR actor is stopped earlier by the final-state guard, and an actor
failing the supervisor check gets the permission error from any status. -/
theorem approve_spec (allow_future : Bool)
    (today_year today_month today_date now year month : Nat)
    (user : User) (employee : Employee) (req : PostRequest) (st : TsState)
    (me : MonthlyEntry)
    (hstart : req.has_start = false)
    (haction : req.review_action = some ("approve"))
    (hme : st.monthly = some me) :
    ((me.status = "verified" ∧ _is_hr user = false) →
      post allow_future today_year today_month today_date now year month
          user employee req st = Except.error PostError.FinalVerified)
    ∧ (((me.status ≠ "verified" ∨ _is_hr user = true)
          ∧ _is_supervisor user employee = false) →
        post allow_future today_year today_month today_date now year month
            user employee req st = Except.error PostError.NotAllowedApprove)
    ∧ (((me.status ≠ "verified" ∨ _is_hr user = true)
          ∧ _is_supervisor user employee = true ∧ me.status ≠ "submitted") →
        post allow_future today_year today_month today_date now year month
            user employee req st = Except.error PostError.OnlySubmittedApprove)
    ∧ ((me.status = "submitted" ∧ _is_supervisor user employee = true) →
        post allow_future today_year today_month today_date now year month
            user employee req st
          = Except.ok ⟨some { me with
              status := "approved",
              approved_by := some (get_user_credentials user),
              approved_date := some today_date,
              comment := pyStrip req.review_comment }, st.entries⟩) := by
  refine ⟨?_, ?_, ?_, ?_⟩
  · rintro ⟨hstatus, hhr⟩
    simp [post, hstart, haction, hme, hhr, is_final, hstatus]
  · rintro ⟨hnv, hsup⟩
    rcases hnv with hnv | hhr
    · have hfin : is_final me = false := by
        simp [is_final, hnv]
      simp [post, hstart, haction, hme, hsup, hfin]
    · simp [post, hstart, haction, hme, hsup, hhr]
  · rintro ⟨hnv, hsup, hns⟩
    rcases hnv with hnv | hhr
    · have hfin : is_final me = false := by
        simp [is_final, hnv]
      simp [post, hstart, haction, hme, hsup, hfin, hns]
    · simp [post, hstart, haction, hme, hsup, hhr, hns]
  · rintro ⟨hstatus, hsup⟩
    have hfin : is_final me = false := by
      simp [is_final, hstatus]
    simp [post, hstart, haction, hme, hsup, hfin, hstatus]

/-- C7 counterexample: with the timesheet 'verified', an approve attempt by
the correct supervisor-of-record (not in HR) fails with the final-state
guard's error, not the invalid-transition error the claim prescribes for
every non-'submitted' status. -/
theorem approve_counterexample :
    post false 2024 3 15 99 2024 3 supUser emp0 (reviewReq ("approve"))
        ⟨some meVerified, []⟩ = Except.error PostError.FinalVerified
    ∧ _is_supervisor supUser emp0 = true
    ∧ _is_hr supUser = false
    ∧ PostError.FinalVerified ≠ PostError.OnlySubmittedApprove := by
  refine ⟨rfl, rfl, rfl, by decide⟩

/-- C7 witness: the amended theorem instantiated with the correct supervisor
approving a submitted timesheet (and the error clauses for the same
request). -/
theorem approve_spec_witness :
    ((reviewReq ("approve")).has_start = false
      ∧ (reviewReq ("approve")).review_action = some ("approve")
      ∧ (some meSubmitted : Option MonthlyEntry) = some meSubmitted)
    ∧ (((meSubmitted.status = "verified" ∧ _is_hr supUser = false) →
        post false 2024 3 15 99 2024 3 supUser emp0 (reviewReq ("approve"))
            ⟨some meSubmitted, []⟩ = Except.error PostError.FinalVerified)
      ∧ (((meSubmitted.status ≠ "verified" ∨ _is_hr supUser = true)
            ∧ _is_supervisor supUser emp0 = false) →
          post false 2024 3 15 99 2024 3 supUser emp0 (reviewReq ("approve"))
              ⟨some meSubmitted, []⟩ = Except.error PostError.NotAllowedApprove)
      ∧ (((meSubmitted.status ≠ "verified" ∨ _is_hr supUser = true)
            ∧ _is_supervisor supUser emp0 = true ∧ meSubmitted.status ≠ "submitted") →
          post false 2024 3 15 99 2024 3 supUser emp0 (reviewReq ("approve"))
              ⟨some meSubmitted, []⟩ = Except.error PostError.OnlySubmittedApprove)
      ∧ ((meSubmitted.status = "submitted" ∧ _is_supervisor supUser emp0 = true) →
          post false 2024 3 15 99 2024 3 supUser emp0 (reviewReq ("approve"))
              ⟨some meSubmitted, []⟩
            = Except.ok ⟨some { meSubmitted with
                status := "approved",
                approved_by := some (get_user_credentials supUser),
                approved_date := some 15,
                comment := pyStrip (reviewReq ("approve")).review_comment }, []⟩)) :=
  ⟨⟨rfl, rfl, rfl⟩,
   approve_spec false 2024 3 15 99 2024 3 supUser emp0 (reviewReq ("approve"))
     ⟨some meSubmitted, []⟩ meSubmitted rfl rfl rfl⟩

/-- C4 (amended): the reject action succeeds exactly when the current status
is 'submitted' or 'approved' AND the actor belongs to the Supervisor or HR
group (`_reviewer`): no supervisor-of-record email check is performed, so a
Supervisor-group actor whose email does not match the employee's recorded
supervisor email can still reject.  On success the status becomes 'rejected'
with rejecter identity and date recorded; otherwise the request errors with
no state change. -/
theorem reject_spec (allow_future : Bool)
    (today_year today_month today_date now year month : Nat)
    (user : User) (employee : Employee) (req : PostRequest) (st : TsState)
    (me : MonthlyEntry)
    (hstart : req.has_start = false)
    (haction : req.review_action = some ("reject"))
    (hme : st.monthly = some me) :
    ((_reviewer user = true ∧ (me.status = "submitted" ∨ me.status = "approved")) →
      post allow_future today_year today_month today_date now year month
          user employee req st
        = Except.ok ⟨some { me with
            status := "rejected",
            rejected_by := some (get_user_credentials user),
            rejected_date := some today_date,
            comment := pyStrip req.review_comment }, st.entries⟩)
    ∧ (_reviewer user = false →
        ∃ err, post allow_future today_year today_month today_date now year month
            user employee req st = Except.error err)
    ∧ ((_reviewer user = true ∧ me.status ≠ "submitted" ∧ me.status ≠ "approved") →
        ∃ err, post allow_future today_year today_month today_date now year month
            user employee req st = Except.error err) := by
  refine ⟨?_, ?_, ?_⟩
  · rintro ⟨hrev, hstatus⟩
    have hfin : is_final me = false := by
      rcases hstatus with h | h <;> simp [is_final, h]
    rcases hstatus with h | h <;>
      simp [post, hstart, haction, hme, hrev, hfin, h]
  · intro hrev
    have hhr : _is_hr user = false :=
      (Bool.or_eq_false_iff.mp
        (show (user.groups.contains ("Supervisor")
          || user.groups.contains ("HR")) = false from hrev)).2
    by_cases hv : me.status = "verified"
    · exact ⟨PostError.FinalVerified,
        by simp [post, hstart, haction, hme, hhr, is_final, hv]⟩
    · refine ⟨PostError.NotAllowedReject, ?_⟩
      have hfin : is_final me = false := by
        simp [is_final, hv]
      simp [post, hstart, haction, hme, hrev, hhr, hfin]
  · rintro ⟨hrev, hns, hna⟩
    by_cases hhr : _is_hr user = true
    · refine ⟨PostError.OnlySubmittedOrApprovedReject, ?_⟩
      simp [post, hstart, haction, hme, hrev, hhr, hns, hna]
    · have hhr' : _is_hr user = false := by
        simpa using hhr
      by_cases hv : me.status = "verified"
      · exact ⟨PostError.FinalVerified,
          by simp [post, hstart, haction, hme, hhr', is_final, hv]⟩
      · refine ⟨PostError.OnlySubmittedOrApprovedReject, ?_⟩
        have hfin : is_final me = false := by
          simp [is_final, hv]
        simp [post, hstart, haction, hme, hrev, hhr', hfin, hns, hna]

/-- C4 counterexample: a Supervisor-group actor whose email ('other@x') does
not match the employee's recorded supervisor email ('sup@x') nevertheless
rejects a submitted timesheet successfully — the claim says this must fail
with a permission error. -/
theorem reject_counterexample :
    post false 2024 3 15 99 2024 3 wrongSup emp0 (reviewReq ("reject"))
        ⟨some meSubmitted, []⟩
      = Except.ok ⟨some { meSubmitted with
          status := "rejected",
          rejected_by := some ("O. Her"),
          rejected_date := some 15,
          comment := "" }, []⟩
    ∧ _is_employee_supervisor wrongSup emp0 = false
    ∧ _is_supervisor wrongSup emp0 = false
    ∧ _reviewer wrongSup = true := by
  refine ⟨rfl, rfl, rfl, rfl⟩

/-- C4 witness: HR rejecting an approved timesheet, instantiating the amended
theorem's hypotheses at concrete values. -/
theorem reject_spec_witness :
    ((reviewReq ("reject")).has_start = false
      ∧ (reviewReq ("reject")).review_action = some ("reject")
      ∧ (some meApproved : Option MonthlyEntry) = some meApproved)
    ∧ (((_reviewer hrUser = true
          ∧ (meApproved.status = "submitted" ∨ meApproved.status = "approved")) →
        post false 2024 3 15 99 2024 3 hrUser emp0 (reviewReq ("reject"))
            ⟨some meApproved, []⟩
          = Except.ok ⟨some { meApproved with
              status := "rejected",
              rejected_by := some (get_user_credentials hrUser),
              rejected_date := some 15,
              comment := pyStrip (reviewReq ("reject")).review_comment }, []⟩)
      ∧ (_reviewer hrUser = false →
          ∃ err, post false 2024 3 15 99 2024 3 hrUser emp0 (reviewReq ("reject"))
              ⟨some meApproved, []⟩ = Except.error err)
      ∧ ((_reviewer hrUser = true
            ∧ meApproved.status ≠ "submitted" ∧ meApproved.status ≠ "approved") →
          ∃ err, post false 2024 3 15 99 2024 3 hrUser emp0 (reviewReq ("reject"))
              ⟨some meApproved, []⟩ = Except.error err)) :=
  ⟨⟨rfl, rfl, rfl⟩,
   reject_spec false 2024 3 15 99 2024 3 hrUser emp0 (reviewReq ("reject"))
     ⟨some meApproved, []⟩ meApproved rfl rfl rfl⟩

/-- Fixture: a bare 'start' request. -/
def startReq : PostRequest :=
  ⟨true, none, "", false, false, false, []⟩

/-- Fixture: a well-formed save-and-submit request carrying one edited row. -/
def submitReq : PostRequest :=
  ⟨false, none, "", true, true, true, [⟨⟨2024, 4, 1⟩, 8, "RH"⟩]⟩

/-- Fixture: a well-formed save-as-draft (edit) request carrying one edited
row. -/
def editReq : PostRequest :=
  ⟨false, none, "", false, true, true, [⟨⟨2024, 3, 1⟩, 9, "RH"⟩]⟩

/-- C5 (amended): the future-month guard of the POST handler covers only the
'start' action: 'start' for a (year, month) strictly after the current month
— the lexicographic characterization is included — fails with
FutureMonthDisallowed when the allow-future-months flag is unset and is
permitted when the flag is set or the month is not future; the 'submit'
action performs no future-month check at all and succeeds for any month. -/
theorem future_month_guard_spec (allow_future : Bool)
    (today_year today_month today_date now year month : Nat)
    (user : User) (employee : Employee) (reqS reqE : PostRequest)
    (st : TsState) (me : MonthlyEntry)
    (hstart : reqS.has_start = true)
    (hE1 : reqE.has_start = false) (hE2 : reqE.review_action = none)
    (hE3 : reqE.has_management_fields = true) (hE4 : reqE.form_valid = true)
    (hE5 : reqE.has_submit = true) (hme : st.monthly = some me) :
    ((is_future_month year month today_year today_month = true
        ∧ allow_future = false) →
      post allow_future today_year today_month today_date now year month
          user employee reqS st = Except.error PostError.FutureMonthDisallowed)
    ∧ ((allow_future = true ∨ is_future_month year month today_year today_month = false) →
        ∃ st2, post allow_future today_year today_month today_date now year month
            user employee reqS st = Except.ok st2)
    ∧ (is_future_month year month today_year today_month = true ↔
        (today_year < year ∨ (year = today_year ∧ today_month < month)))
    ∧ post allow_future today_year today_month today_date now year month
          user employee reqE st
        = Except.ok ⟨some { me with
            status := "submitted", submitted_datetime := some now },
            reqE.new_entries⟩ := by
  refine ⟨?_, ?_, ?_, ?_⟩
  · rintro ⟨hfut, hallow⟩
    simp [post, hstart, hfut, hallow]
  · intro h
    rcases h with h | h
    · exact ⟨⟨some me, ensure_daily_placeholders year month st.entries⟩,
        by simp [post, hstart, h, hme]⟩
    · exact ⟨⟨some me, ensure_daily_placeholders year month st.entries⟩,
        by simp [post, hstart, h, hme]⟩
  · simp [is_future_month, Bool.or_eq_true, Bool.and_eq_true,
      decide_eq_true_eq, beq_iff_eq]
  · simp [post, hE1, hE2, hE3, hE4, hE5, hme]

/-- C5 counterexample: with today = 2024-03 and the allow-future flag unset,
submitting an existing draft timesheet for 2024-04 — a strictly future month
— succeeds and sets status 'submitted': the claim that 'submit' fails with
FutureMonthDisallowed is false on the code (only 'start' and the GET view are
guarded). -/
theorem future_month_submit_counterexample :
    is_future_month 2024 4 2024 3 = true
    ∧ post false 2024 3 15 99 2024 4 plainUser emp0 submitReq
        ⟨some new_draft, []⟩
      = Except.ok ⟨some { new_draft with
          status := "submitted", submitted_datetime := some 99 },
          [⟨⟨2024, 4, 1⟩, 8, "RH"⟩]⟩ := by
  refine ⟨rfl, rfl⟩

/-- C5 witness: the amended guard instantiated at today = 2024-03, target
month 2024-04, allow-future unset, with a concrete start request and a
concrete submit request against a draft timesheet. -/
theorem future_month_guard_spec_witness :
    (startReq.has_start = true ∧ submitReq.has_start = false
      ∧ submitReq.review_action = none ∧ submitReq.has_management_fields = true
      ∧ submitReq.form_valid = true ∧ submitReq.has_submit = true
      ∧ (some new_draft : Option MonthlyEntry) = some new_draft)
    ∧ (((is_future_month 2024 4 2024 3 = true ∧ false = false) →
        post false 2024 3 15 99 2024 4 plainUser emp0 startReq ⟨some new_draft, []⟩
          = Except.error PostError.FutureMonthDisallowed)
      ∧ ((false = true ∨ is_future_month 2024 4 2024 3 = false) →
          ∃ st2, post false 2024 3 15 99 2024 4 plainUser emp0 startReq
              ⟨some new_draft, []⟩ = Except.ok st2)
      ∧ (is_future_month 2024 4 2024 3 = true ↔
          (2024 < 2024 ∨ (2024 = 2024 ∧ 3 < 4)))
      ∧ post false 2024 3 15 99 2024 4 plainUser emp0 submitReq
            ⟨some new_draft, []⟩
          = Except.ok ⟨some { new_draft with
              status := "submitted", submitted_datetime := some 99 },
              submitReq.new_entries⟩) :=
  ⟨⟨rfl, rfl, rfl, rfl, rfl, rfl, rfl⟩,
   future_month_guard_spec false 2024 3 15 99 2024 4 plainUser emp0 startReq
     submitReq ⟨some new_draft, []⟩ new_draft rfl rfl rfl rfl rfl rfl rfl⟩

/-- C1 (amended): the save/submit path of the POST handler enforces no status
and no ownership gate: whenever the monthly entry exists, the management
fields are present and the forms validate, the daily-entry edits are saved
for ANY actor and ANY status (and with 'submit' the status is even moved to
'submitted'); the owner-only draft/rejected edit rule exists only as the
display flag `allow_edit` computed in `_build_extra_context`, which is true
exactly for the owner when the status is neither 'approved' nor 'verified'. -/
theorem edit_path_spec (allow_future : Bool)
    (today_year today_month today_date now year month : Nat)
    (user : User) (employee : Employee) (req : PostRequest) (st : TsState)
    (me : MonthlyEntry)
    (h1 : req.has_start = false) (h2 : req.review_action = none)
    (h3 : req.has_management_fields = true) (h4 : req.form_valid = true)
    (hme : st.monthly = some me) :
    (req.has_submit = false →
      post allow_future today_year today_month today_date now year month
          user employee req st = Except.ok ⟨some me, req.new_entries⟩)
    ∧ (req.has_submit = true →
      post allow_future today_year today_month today_date now year month
          user employee req st
        = Except.ok ⟨some { me with
            status := "submitted", submitted_datetime := some now },
            req.new_entries⟩)
    ∧ (∀ (o : Bool) (s : Option String), allow_edit o s = true ↔
        (o = true ∧ s ≠ some "approved" ∧ s ≠ some "verified")) := by
  refine ⟨?_, ?_, ?_⟩
  · intro hsub
    simp [post, h1, h2, h3, h4, hme, hsub]
  · intro hsub
    simp [post, h1, h2, h3, h4, hme, hsub]
  · intro o s
    simp only [allow_edit, Bool.and_eq_true, Bool.not_eq_true',
      Bool.or_eq_false_iff, beq_eq_false_iff_ne, ne_eq]

/-- C1 counterexample: an 'approved' timesheet; an actor in no group (and not
the owner of anything) posts a valid daily-entry edit; the handler saves it —
the result is `ok` with the daily entries replaced, not a read-only
violation, and the entries did change. -/
theorem edit_readonly_counterexample :
    post false 2024 3 15 99 2024 3 plainUser emp0 editReq
        ⟨some meApproved, [⟨⟨2024, 3, 1⟩, 0, ""⟩]⟩
      = Except.ok ⟨some meApproved, [⟨⟨2024, 3, 1⟩, 9, "RH"⟩]⟩
    ∧ ([⟨⟨2024, 3, 1⟩, 9, "RH"⟩] : List DailyEntry) ≠ [⟨⟨2024, 3, 1⟩, 0, ""⟩]
    ∧ meApproved.status = "approved" := by
  refine ⟨rfl, by decide, rfl⟩

/-- C1 witness: the amended no-gate behaviour instantiated at the concrete
'approved' timesheet and edit request of the counterexample scenario. -/
theorem edit_path_spec_witness :
    (editReq.has_start = false ∧ editReq.review_action = none
      ∧ editReq.has_management_fields = true ∧ editReq.form_valid = true
      ∧ (some meApproved : Option MonthlyEntry) = some meApproved)
    ∧ ((editReq.has_submit = false →
        post false 2024 3 15 99 2024 3 plainUser emp0 editReq
            ⟨some meApproved, [⟨⟨2024, 3, 1⟩, 0, ""⟩]⟩
          = Except.ok ⟨some meApproved, editReq.new_entries⟩)
      ∧ (editReq.has_submit = true →
        post false 2024 3 15 99 2024 3 plainUser emp0 editReq
            ⟨some meApproved, [⟨⟨2024, 3, 1⟩, 0, ""⟩]⟩
          = Except.ok ⟨some { meApproved with
              status := "submitted", submitted_datetime := some 99 },
              editReq.new_entries⟩)
      ∧ (∀ (o : Bool) (s : Option String), allow_edit o s = true ↔
          (o = true ∧ s ≠ some "approved" ∧ s ≠ some "verified"))) :=
  ⟨⟨rfl, rfl, rfl, rfl, rfl⟩,
   edit_path_spec false 2024 3 15 99 2024 3 plainUser emp0 editReq
     ⟨some meApproved, [⟨⟨2024, 3, 1⟩, 0, ""⟩]⟩ meApproved rfl rfl rfl rfl rfl⟩

end TimesheetDashboard
